import Mathlib

/-!
Verification development for the task scheduling and execution core
(controller-side `TaskPool` in `services/tasks/TaskPool.go` and the
runner-side `JobPool` in the runners package).

The Go code is shallowly embedded: Go maps keyed by `int` become
association lists (or functions into lists for the two-level
`activeProj` map), fallible store calls become `Option`/`Except`
results, and Go's 64-bit `int` becomes `Int` with explicit wrapping
where overflow matters.
-/

namespace Semaphore

/-- Modelled from the spec: the task status enumeration of the `db`
package (§4.3).  The `db` sources are not part of the embedded tree;
the spec lists the states `Waiting`, `Starting`, `Running`, `Stopping`,
`Stopped`, `Success`, `Fail`, `ConfirmationWaiting`. -/
inductive TaskStatus where
  | waiting
  | starting
  | running
  | stopping
  | stopped
  | success
  | fail
  | confirmationWaiting
deriving DecidableEq, Fintype

/-- Modelled from the spec: `IsFinished()` returns true for `Stopped`,
`Success`, `Fail` (§4.3). -/
def TaskStatus.IsFinished : TaskStatus → Bool
  | .stopped => true
  | .success => true
  | .fail => true
  | _ => false

/-- The fields of `db.Task` used by the scheduling core
(`Task.ID`, `Task.ProjectID`, `Task.TemplateID`, `Task.Status`). -/
structure Task where
  id : Int
  projectID : Int
  templateID : Int
  status : TaskStatus
deriving DecidableEq

/-- A `TaskRunner` as used by `TaskPool.blocks` and the resource
locker: the wrapped `Task` plus the resolved template's id
(`r.Template.ID`).  `populateDetails` resolves `Template` from the
store by `Task.TemplateID`, so in every runner built by `AddTask`
the two template ids agree. -/
structure TaskRunner where
  task : Task
  templateID : Int
deriving DecidableEq

/-- The fields of `db.Project` used by `TaskPool.blocks`
(`proj.MaxParallelTasks`). -/
structure Project where
  maxParallelTasks : Int
deriving DecidableEq

/-- The scheduling state of `TaskPool`: the `runningTasks` map
(keyed by `Task.ID`, modelled as a list with distinct ids) and the
two-level `activeProj` map, modelled as a function from project id
to the bucket of active runners of that project (a missing key and
an empty bucket are both the empty list, matching Go's `== nil`
versus `len == 0` checks which the code treats alike). -/
structure PoolState where
  runningTasks : List TaskRunner
  activeProj : Int → List TaskRunner

/-- The store's `GetProject`: `none` models a lookup error
(the error value itself is only logged by `blocks`). -/
def ProjectStore := Int → Option Project

/-- `TaskPool.blocks` (TaskPool.go:170-194).
1. `len(p.runningTasks) >= util.Config.MaxParallelTasks` → true;
2. a nil or empty project bucket → false;
3. some active runner of the project with `r.Template.ID ==
   t.Task.TemplateID` → true;
4. `GetProject` error → false; otherwise
   `proj.MaxParallelTasks > 0 && len(bucket) >= proj.MaxParallelTasks`. -/
def blocks (cfg : Int) (store : ProjectStore) (s : PoolState) (t : TaskRunner) : Bool :=
  if cfg ≤ (s.runningTasks.length : Int) then
    true
  else if (s.activeProj t.task.projectID).length = 0 then
    false
  else if (s.activeProj t.task.projectID).any (fun r => r.templateID == t.task.templateID) then
    true
  else
    match store t.task.projectID with
    | none => false
    | some proj =>
      decide (0 < proj.maxParallelTasks ∧
        proj.maxParallelTasks ≤ ((s.activeProj t.task.projectID).length : Int))

/-- The queue-ticker admission branch of `TaskPool.Run`
(TaskPool.go:139-166): look at the head of the queue only; a head
already in `Fail` status is dropped; a blocked head is rotated to the
tail; otherwise the head is locked (the locker inserts it into
`activeProj` and `runningTasks`) and removed from the queue.
Sending the lock record and the locker goroutine's insertion are
modelled as one atomic update (`lockState`). -/
def lockState (s : PoolState) (t : TaskRunner) : PoolState :=
  { runningTasks := t :: s.runningTasks.filter (fun r => r.task.id != t.task.id)
    activeProj := fun p =>
      if p = t.task.projectID then
        t :: (s.activeProj p).filter (fun r => r.task.id != t.task.id)
      else
        s.activeProj p }

/-- The unlock branch of the resource-locker goroutine
(TaskPool.go:103-110): remove the holder from its project bucket and
from `runningTasks` (pruning an empty bucket is the identity in the
list model). -/
def unlockState (s : PoolState) (t : TaskRunner) : PoolState :=
  { runningTasks := s.runningTasks.filter (fun r => r.task.id != t.task.id)
    activeProj := fun p =>
      if p = t.task.projectID then
        (s.activeProj p).filter (fun r => r.task.id != t.task.id)
      else
        s.activeProj p }

/-- One admission tick (the `ticker.C` arm of `TaskPool.Run`,
TaskPool.go:139-166), acting on the pool state together with the
queue.  Returns the new state and the new queue. -/
def admissionTick (cfg : Int) (store : ProjectStore) (s : PoolState)
    (queue : List TaskRunner) : PoolState × List TaskRunner :=
  match queue with
  | [] => (s, [])
  | t :: rest =>
    if t.task.status = .fail then
      (s, rest)
    else if blocks cfg store s t then
      (s, rest ++ [t])
    else
      (lockState s t, rest)

/-- A well-formed runner: the resolved template's id equals the
task's template id.  `populateDetails` hydrates `Template` from the
store by `Task.TemplateID` (§4.2), so every runner that reaches the
resource locker through `AddTask` satisfies this. -/
def WfRunner (t : TaskRunner) : Prop :=
  t.templateID = t.task.templateID

/-- The transition relation of the admission maps: an admission tick
sends a `lock` record only after `blocks` returned false
(TaskPool.go:153-160), the locker inserts the holder
(TaskPool.go:88-100), and an `unlock` removes it
(TaskPool.go:103-110). -/
inductive PoolStep (cfg : Int) (store : ProjectStore) : PoolState → PoolState → Prop
  | lock (s : PoolState) (t : TaskRunner) (hwf : WfRunner t)
      (hb : blocks cfg store s t = false) :
      PoolStep cfg store s (lockState s t)
  | unlock (s : PoolState) (t : TaskRunner) :
      PoolStep cfg store s (unlockState s t)

/-- The pool state at process start (`CreateTaskPool`): both maps empty. -/
def initialPool : PoolState :=
  ⟨[], fun _ => []⟩

/-- States reachable from the initial pool state through lock and
unlock transitions. -/
def PoolReachable (cfg : Int) (store : ProjectStore) (s : PoolState) : Prop :=
  Relation.ReflTransGen (PoolStep cfg store) initialPool s

/-- The inductive invariant: every active runner is well-formed and
two distinct active tasks of one project have distinct template ids. -/
def PoolInv (s : PoolState) : Prop :=
  (∀ p r, r ∈ s.activeProj p → WfRunner r) ∧
  (∀ p t1 t2, t1 ∈ s.activeProj p → t2 ∈ s.activeProj p →
    t1.task.id ≠ t2.task.id → t1.task.templateID ≠ t2.task.templateID)

/-- A concrete reachable state for the C8 witness: two runners of
project `10` with templates `100` and `200` locked in turn (the store
fails, the global cap is `3`). -/
def poolStateTwoLocks : PoolState :=
  lockState (lockState initialPool ⟨⟨1, 10, 100, .waiting⟩, 100⟩)
    ⟨⟨2, 10, 200, .waiting⟩, 200⟩

/-- The observable outcome of one `TaskPool.StopTask` call: the
status written through `SetStatus` (if any), whether the explicit
`createTaskEvent` call of the non-active branch ran, whether the
runner's `kill()` was invoked, and the returned error. -/
structure StopResult where
  statusSet : Option TaskStatus
  eventCreated : Bool
  killInvoked : Bool
  retErr : Option String
deriving DecidableEq

/-- `TaskPool.StopTask` (TaskPool.go:208-236).  `active` is the
result of `p.GetTask(targetTask.ID)` (`none` when the task is in
neither the queue nor `runningTasks`); `populate` is the result of
the fresh runner's `populateDetails()` in the non-active branch
(its body lives outside the embedded tree; only its success or error
is observable here).  In the active branch the prior status is read
before `SetStatus`, and `kill()` runs only if that prior status was
`Running`. -/
def stopTask (active : Option TaskRunner) (populate : Except String Unit)
    (forceStop : Bool) : StopResult :=
  match active with
  | none =>
    match populate with
    | .error e => { statusSet := none, eventCreated := false,
                    killInvoked := false, retErr := some e }
    | .ok _ => { statusSet := some .stopped, eventCreated := true,
                 killInvoked := false, retErr := none }
  | some tsk =>
    { statusSet := some (if forceStop then .stopped else .stopping)
      eventCreated := false
      killInvoked := tsk.task.status == .running
      retErr := none }

/-- The final-status computation of the `JobPool.Run` queue-ticker
execution goroutine after `job.Run` returns (the runners package,
lines 592-604 of the embedded sources): if the running job's status is
already terminal nothing is written (`none`); otherwise, on a non-nil
error the status becomes `Stopped` when it was `Stopping` and `Fail`
otherwise, and on a nil error it becomes `Success`. -/
def runnerFinalStatus (cur : TaskStatus) (runFailed : Bool) : Option TaskStatus :=
  if cur.IsFinished then
    none
  else if runFailed then
    if cur = .stopping then some .stopped else some .fail
  else
    some .success

/-- One entry of the runner-side queue: the pulled job's task id and
the username carried in `JobData` (the remaining denormalized records
do not affect queueing). -/
structure QueuedJob where
  taskID : Int
  username : String
deriving DecidableEq

/-- The queue mutation performed by `JobPool.checkNewJobs` (the
runners package, lines 800-843 of the embedded sources) for one
`RunnerState` response: in one-off mode with a non-empty queue or a
non-empty `runningJobs` map nothing is enqueued; otherwise every
`new_jobs` entry whose task id is not a key of `runningJobs` is
appended to the queue, in response order, with no check against the
queue itself. -/
def checkNewJobsQueue (oneOff : Bool) (runningIDs : List Int)
    (queue : List QueuedJob) (newJobs : List QueuedJob) : List QueuedJob :=
  if oneOff && (queue.length != 0 || runningIDs.length != 0) then
    queue
  else
    queue ++ newJobs.filter (fun j => !(runningIDs.contains j.taskID))

/-- A JSON object restricted to the string-valued environments the
merge test exercises, as a key/value association list. -/
def EnvObject := List (String × String)

/-- Modelled from the spec: the environment merge of
`TaskRunner.populateDetails` as the spec words it — "merges
template.JSON with task.Environment JSON (task's override wins on key
collision)".  `populateDetails` itself is not among the embedded
sources; only its test `TestPopulateDetails` is.  The merged object
is given by its key lookup: the task's value when present, else the
template's. -/
def mergeEnvTaskWins (tplEnv taskEnv : EnvObject) : String → Option String :=
  fun k =>
    match List.lookup k taskEnv with
    | some v => some v
    | none => List.lookup k tplEnv

/-- The merge the code actually performs, as pinned by
`TestPopulateDetails` (TaskRunner_test.go:211-240): the template's
value wins on a colliding key ("comment" keeps the template's
"Hello, World!", not the task's "Just do it!"). -/
def mergeEnv (tplEnv taskEnv : EnvObject) : String → Option String :=
  fun k =>
    match List.lookup k tplEnv with
    | some v => some v
    | none => List.lookup k taskEnv

/-- The template environment of `TestPopulateDetails`:
`{"author": "Denis", "comment": "Hello, World!"}`. -/
def tplEnvTest : EnvObject :=
  [("author", "Denis"), ("comment", "Hello, World!")]

/-- The task environment override of `TestPopulateDetails`:
`{"comment": "Just do it!", "time": "2021-11-02"}`. -/
def taskEnvTest : EnvObject :=
  [("comment", "Just do it!"), ("time", "2021-11-02")]

/-- The merged environment `TestPopulateDetails` asserts
(TaskRunner_test.go:237):
`{"author":"Denis","comment":"Hello, World!","time":"2021-11-02"}`. -/
def mergedEnvTest : EnvObject :=
  [("author", "Denis"), ("comment", "Hello, World!"), ("time", "2021-11-02")]

/-- No newline character in the list.  Go's `.` (with no `s` flag)
matches any character EXCEPT newline, while a negated class such as
the pattern's non-digit class still matches newline. -/
def noNewline (l : List Char) : Bool :=
  l.all (fun c => c != '\n')

/-- Whether splitting the string before position `k` yields a match
of the anchored Go pattern: group 1 (optional, any-except-newline run
followed by one non-digit, so a newline may appear only as its final
character) is `s.take k`; group 2 is the maximal digit run starting
at `k` and must be non-empty; group 3 (optional, one non-digit
followed by an any-except-newline run, so a newline may appear only
as its first character) is the remainder, whose tail must therefore
be newline-free. -/
def validSplit (s : List Char) (k : Nat) : Bool :=
  !(((s.drop k).takeWhile (fun c => c.isDigit)).isEmpty) &&
  (match (s.take k).getLast? with
   | none => true
   | some c => !c.isDigit && noNewline (s.take k).dropLast) &&
  (match (s.drop k).dropWhile (fun c => c.isDigit) with
   | [] => true
   | _ :: tl => noNewline tl)

/-- The decomposition performed by
`regexp.MustCompile(...).FindStringSubmatch(startVersion)` for the
anchored pattern whose three groups are an optional greedy prefix
ending in a non-digit, a digit run, and an optional remainder
starting with a non-digit.  Leftmost-greedy matching (the optional
first group prefers to be present and its any-except-newline star
prefers the longest run, and only the maximal digit run can complete
a match) selects the LARGEST split point `k` at which `validSplit`
holds.  Returns `(prefix-part, digit-run, suffix-part)`, or `none`
when no split point matches — in particular when the string has no
digit, or when a newline makes every split fail (Go's `.` does not
cross newlines).  The Go switch on `len(m) - 1` always takes its
3-group arm when the match succeeds, since `FindStringSubmatch` pads
non-participating groups. -/
def matchVersionRe (s : List Char) : Option (List Char × List Char × List Char) :=
  match (List.range (s.length + 1)).reverse.find? (fun k => validSplit s k) with
  | none => none
  | some k =>
    some (s.take k, (s.drop k).takeWhile (fun c => c.isDigit),
      (s.drop k).dropWhile (fun c => c.isDigit))

/-- The numeric value of a digit run, most significant first. -/
def digitsVal (ds : List Char) : Nat :=
  ds.foldl (fun a c => a * 10 + (c.toNat - 48)) 0

/-- The magnitude part of `strconv.Atoi`: a non-empty all-digit
string, else failure. -/
def atoiDigits (ds : List Char) : Option Nat :=
  if ds.isEmpty then
    none
  else if ds.all (fun c => c.isDigit) then
    some (digitsVal ds)
  else
    none

/-- `strconv.Atoi` on a 64-bit platform: an optional single `+`/`-`
sign followed by digits; values outside the 64-bit `int` range give a
range error. -/
def atoi (s : List Char) : Option Int :=
  match s with
  | [] => none
  | c :: rest =>
    if c = '+' then
      (atoiDigits rest).bind (fun n =>
        if (n : Int) ≤ 9223372036854775807 then some ((n : Int)) else none)
    else if c = '-' then
      (atoiDigits rest).bind (fun n =>
        if (n : Int) ≤ 9223372036854775808 then some (-(n : Int)) else none)
    else
      (atoiDigits s).bind (fun n =>
        if (n : Int) ≤ 9223372036854775807 then some ((n : Int)) else none)

/-- Two's-complement wrap-around of Go's 64-bit `int` addition. -/
def wrap64 (x : Int) : Int :=
  (x + 9223372036854775808) % 18446744073709551616 - 9223372036854775808

/-- `getNextBuildVersion` (TaskPool.go:238-290).  `none` models a Go
runtime panic: the slice
`currentVersion[len(prefix) : len(currentVersion)-len(suffix)]` with
crossing bounds, or the `panic(err)` when parsing the digit run of
`startVersion` overflows `int`.  The increment `curr + 1` is Go
64-bit `int` addition and wraps. -/
def getNextBuildVersion (startVersion currentVersion : String) : Option String :=
  match matchVersionRe startVersion.data with
  | none => some startVersion
  | some (pre, body, sfx) =>
    if !(pre.isPrefixOf currentVersion.data) || !(sfx.isSuffixOf currentVersion.data) then
      some startVersion
    else if currentVersion.data.length - sfx.length < pre.length then
      none
    else
      match atoi ((currentVersion.data.take (currentVersion.data.length - sfx.length)).drop
          pre.length) with
      | none => some startVersion
      | some curr =>
        match atoi body with
        | none => none
        | some start =>
          some (String.mk (pre ++
            (toString (if start > curr then start else wrap64 (curr + 1))).data ++ sfx))

/-- Claim C1: `TaskPool.blocks(t)` is true iff the global cap is
reached, or some active runner of `t`'s project has `t`'s template id,
or the project's own limit is positive and met; precondition:
`GetProject` succeeds for `t`'s project. -/
theorem blocks_characterization (cfg : Int) (store : ProjectStore) (s : PoolState)
    (t : TaskRunner) (proj : Project)
    (h : store t.task.projectID = some proj) :
    blocks cfg store s t = true ↔
      (cfg ≤ (s.runningTasks.length : Int)
        ∨ (∃ r ∈ s.activeProj t.task.projectID, r.templateID = t.task.templateID)
        ∨ (0 < proj.maxParallelTasks ∧
            proj.maxParallelTasks ≤ ((s.activeProj t.task.projectID).length : Int))) := by
  unfold blocks
  rw [h]
  split_ifs with h1 h2 h3
  · exact iff_of_true rfl (Or.inl h1)
  · refine iff_of_false (by simp) ?_
    rw [List.length_eq_zero] at h2
    rintro (hc | ⟨r, hr, _⟩ | ⟨hpos, hle⟩)
    · exact h1 hc
    · rw [h2] at hr; exact absurd hr (List.not_mem_nil r)
    · rw [h2] at hle; simp at hle; omega
  · refine iff_of_true rfl (Or.inr (Or.inl ?_))
    rcases List.any_eq_true.mp h3 with ⟨r, hr, hbeq⟩
    exact ⟨r, hr, by simpa using hbeq⟩
  · simp only [List.any_eq_true, beq_iff_eq] at h3
    push_neg at h3
    rw [decide_eq_true_eq]
    constructor
    · intro hp
      exact Or.inr (Or.inr hp)
    · rintro (hc | ⟨r, hr, hre⟩ | hp)
      · exact absurd hc h1
      · exact absurd hre (h3 r hr)
      · exact hp

/-- Witness for C1 at a concrete state: one active runner of a
different template in project `10`, project limit `1` reached. -/
theorem blocks_characterization_witness :
    blocks 5 (fun _ => some ⟨1⟩)
        ⟨[⟨⟨1, 10, 100, .running⟩, 100⟩],
          fun p => if p = 10 then [⟨⟨1, 10, 100, .running⟩, 100⟩] else []⟩
        ⟨⟨2, 10, 200, .waiting⟩, 200⟩ = true ↔
      ((5 : Int) ≤ ((1 : Nat) : Int)
        ∨ (∃ r ∈ [(⟨⟨1, 10, 100, .running⟩, 100⟩ : TaskRunner)],
            r.templateID = (200 : Int))
        ∨ ((0 : Int) < 1 ∧ (1 : Int) ≤ ((1 : Nat) : Int))) := by
  have h := blocks_characterization 5 (fun _ => some ⟨1⟩)
    ⟨[⟨⟨1, 10, 100, .running⟩, 100⟩],
      fun p => if p = 10 then [⟨⟨1, 10, 100, .running⟩, 100⟩] else []⟩
    ⟨⟨2, 10, 200, .waiting⟩, 200⟩ ⟨1⟩ rfl
  simpa using h

/-- Claim C2: with the global `MaxParallelTasks` configured to `0`,
`blocks` returns `true` for every task in every state, because
`len(p.runningTasks) >= 0` always holds (TaskPool.go:172 has no
`> 0` guard on the configured value); consequently an admission tick
never admits a non-failed head — it is always rotated back.  This
contradicts the documented "0 means unlimited" semantics: nothing can
ever be admitted. -/
theorem blocks_zero_cap_always_blocks (store : ProjectStore) (s : PoolState)
    (t : TaskRunner) (rest : List TaskRunner) :
    blocks 0 store s t = true ∧
      (t.task.status ≠ .fail →
        admissionTick 0 store s (t :: rest) = (s, rest ++ [t])) := by
  have hb : blocks 0 store s t = true := by
    unfold blocks
    rw [if_pos (Int.natCast_nonneg s.runningTasks.length)]
  refine ⟨hb, fun hst => ?_⟩
  simp only [admissionTick]
  rw [if_neg hst, if_pos hb]

/-- Witness for C2: the empty pool with `MaxParallelTasks = 0` blocks
a fresh waiting task and the admission tick rotates it. -/
theorem blocks_zero_cap_always_blocks_witness :
    blocks 0 (fun _ => some ⟨0⟩) ⟨[], fun _ => []⟩ ⟨⟨1, 10, 100, .waiting⟩, 100⟩ = true ∧
      admissionTick 0 (fun _ => some ⟨0⟩) ⟨[], fun _ => []⟩
          [⟨⟨1, 10, 100, .waiting⟩, 100⟩] =
        (⟨[], fun _ => []⟩, [⟨⟨1, 10, 100, .waiting⟩, 100⟩]) := by
  have h := blocks_zero_cap_always_blocks (fun _ => some ⟨0⟩) ⟨[], fun _ => []⟩
    ⟨⟨1, 10, 100, .waiting⟩, 100⟩ []
  exact ⟨h.1, h.2 (by decide)⟩

/-- Claim C9: when the global cap is not reached and no active runner
of `t`'s project shares `t`'s template id, a `GetProject` error makes
`blocks` return `false` (TaskPool.go:186-191 logs the error and
returns false), so the task is treated as unblocked even if the
project limit would otherwise apply. -/
theorem blocks_project_error_unblocked (cfg : Int) (store : ProjectStore)
    (s : PoolState) (t : TaskRunner)
    (hcap : ¬ cfg ≤ (s.runningTasks.length : Int))
    (htpl : ∀ r ∈ s.activeProj t.task.projectID, r.templateID ≠ t.task.templateID)
    (herr : store t.task.projectID = none) :
    blocks cfg store s t = false := by
  unfold blocks
  rw [if_neg hcap]
  split_ifs with h2 h3
  · rfl
  · rcases List.any_eq_true.mp h3 with ⟨r, hr, hbeq⟩
    exact absurd (by simpa using hbeq) (htpl r hr)
  · rw [herr]

/-- Witness for C9: project bucket full to its limit (`1` active of a
different template) but `GetProject` fails, so `blocks` is `false`. -/
theorem blocks_project_error_unblocked_witness :
    blocks 5 (fun _ => none)
        ⟨[⟨⟨1, 10, 100, .running⟩, 100⟩],
          fun p => if p = 10 then [⟨⟨1, 10, 100, .running⟩, 100⟩] else []⟩
        ⟨⟨2, 10, 200, .waiting⟩, 200⟩ = false := by
  exact blocks_project_error_unblocked 5 (fun _ => none)
    ⟨[⟨⟨1, 10, 100, .running⟩, 100⟩],
      fun p => if p = 10 then [⟨⟨1, 10, 100, .running⟩, 100⟩] else []⟩
    ⟨⟨2, 10, 200, .waiting⟩, 200⟩ (by decide) (by decide) rfl

/-- If `blocks` returned false, no active runner of the task's
project bucket has the task's template id (the single-builder loop
at TaskPool.go:180-184 would have returned true). -/
theorem blocks_eq_false_no_shared_template (cfg : Int) (store : ProjectStore)
    (s : PoolState) (t : TaskRunner) (hb : blocks cfg store s t = false) :
    ∀ r ∈ s.activeProj t.task.projectID, r.templateID ≠ t.task.templateID := by
  intro r hr
  unfold blocks at hb
  split_ifs at hb with h1 h2 h3
  · rw [List.length_eq_zero] at h2
    rw [h2] at hr
    exact absurd hr (List.not_mem_nil r)
  · simp only [List.any_eq_true, beq_iff_eq] at h3
    push_neg at h3
    exact h3 r hr

theorem poolInv_initial : PoolInv initialPool := by
  constructor
  · intro p r hr
    exact absurd hr (List.not_mem_nil r)
  · intro p t1 t2 h1 h2 _
    exact absurd h1 (List.not_mem_nil t1)

theorem poolStep_preserves_inv (cfg : Int) (store : ProjectStore)
    (s s' : PoolState) (hstep : PoolStep cfg store s s') (hinv : PoolInv s) :
    PoolInv s' := by
  obtain ⟨hwfInv, hsingleton⟩ := hinv
  cases hstep with
  | lock t hwf hb =>
    have hbucket : ∀ p, (lockState s t).activeProj p =
        if p = t.task.projectID then
          t :: (s.activeProj p).filter (fun r => r.task.id != t.task.id)
        else s.activeProj p := fun _ => rfl
    have hmem : ∀ p r, r ∈ (lockState s t).activeProj p →
        r = t ∨ r ∈ s.activeProj p := by
      intro p r hr
      rw [hbucket p] at hr
      by_cases hp : p = t.task.projectID
      · rw [if_pos hp, List.mem_cons] at hr
        rcases hr with hr | hr
        · exact Or.inl hr
        · exact Or.inr (List.mem_filter.mp hr).1
      · rw [if_neg hp] at hr
        exact Or.inr hr
    constructor
    · intro p r hr
      rcases hmem p r hr with hrt | hr'
      · rw [hrt]; exact hwf
      · exact hwfInv p r hr'
    · intro p t1 t2 h1 h2 hid
      rw [hbucket p] at h1 h2
      by_cases hp : p = t.task.projectID
      · rw [if_pos hp, List.mem_cons] at h1 h2
        subst hp
        have hnot := blocks_eq_false_no_shared_template cfg store s t hb
        rcases h1 with h1 | h1
        · rcases h2 with h2 | h2
          · rw [h1, h2] at hid
            exact absurd rfl hid
          · have h2' := (List.mem_filter.mp h2).1
            have hne := hnot t2 h2'
            have hwf2 := hwfInv _ t2 h2'
            rw [h1]
            intro hcontra
            exact hne (by rw [hwf2, ← hcontra])
        · rcases h2 with h2 | h2
          · have h1' := (List.mem_filter.mp h1).1
            have hne := hnot t1 h1'
            have hwf1 := hwfInv _ t1 h1'
            rw [h2]
            intro hcontra
            exact hne (by rw [hwf1, hcontra])
          · exact hsingleton _ t1 t2 (List.mem_filter.mp h1).1
              (List.mem_filter.mp h2).1 hid
      · rw [if_neg hp] at h1 h2
        exact hsingleton p t1 t2 h1 h2 hid
  | unlock t =>
    have hbucket : ∀ p, (unlockState s t).activeProj p =
        if p = t.task.projectID then
          (s.activeProj p).filter (fun r => r.task.id != t.task.id)
        else s.activeProj p := fun _ => rfl
    have hmem : ∀ p r, r ∈ (unlockState s t).activeProj p → r ∈ s.activeProj p := by
      intro p r hr
      rw [hbucket p] at hr
      by_cases hp : p = t.task.projectID
      · rw [if_pos hp] at hr
        exact (List.mem_filter.mp hr).1
      · rw [if_neg hp] at hr
        exact hr
    exact ⟨fun p r hr => hwfInv p r (hmem p r hr),
      fun p t1 t2 h1 h2 hid =>
        hsingleton p t1 t2 (hmem p t1 h1) (hmem p t2 h2) hid⟩

theorem poolReachable_inv (cfg : Int) (store : ProjectStore) (s : PoolState)
    (h : PoolReachable cfg store s) : PoolInv s := by
  induction h with
  | refl => exact poolInv_initial
  | tail _ hstep ih => exact poolStep_preserves_inv cfg store _ _ hstep ih

/-- Claim C8: in every reachable pool state, two distinct active
tasks of one project have distinct template ids — at most one active
task per `(project, template)` pair. -/
theorem pool_template_singleton (cfg : Int) (store : ProjectStore) (s : PoolState)
    (h : PoolReachable cfg store s) (p : Int) (t1 t2 : TaskRunner)
    (h1 : t1 ∈ s.activeProj p) (h2 : t2 ∈ s.activeProj p)
    (hid : t1.task.id ≠ t2.task.id) :
    t1.task.templateID ≠ t2.task.templateID :=
  (poolReachable_inv cfg store s h).2 p t1 t2 h1 h2 hid

/-- Witness for C8 at `poolStateTwoLocks`. -/
theorem pool_template_singleton_witness :
    ((⟨⟨1, 10, 100, .waiting⟩, 100⟩ : TaskRunner) ∈ poolStateTwoLocks.activeProj 10) ∧
    ((⟨⟨2, 10, 200, .waiting⟩, 200⟩ : TaskRunner) ∈ poolStateTwoLocks.activeProj 10) ∧
    (⟨⟨1, 10, 100, .waiting⟩, 100⟩ : TaskRunner).task.templateID ≠
      (⟨⟨2, 10, 200, .waiting⟩, 200⟩ : TaskRunner).task.templateID := by
  have hreach : PoolReachable 3 (fun _ => none) poolStateTwoLocks := by
    unfold poolStateTwoLocks
    exact Relation.ReflTransGen.tail
      (Relation.ReflTransGen.single
        (PoolStep.lock initialPool ⟨⟨1, 10, 100, .waiting⟩, 100⟩ rfl (by decide)))
      (PoolStep.lock (lockState initialPool ⟨⟨1, 10, 100, .waiting⟩, 100⟩)
        ⟨⟨2, 10, 200, .waiting⟩, 200⟩ rfl (by decide))
  refine ⟨by decide, by decide, ?_⟩
  exact pool_template_singleton 3 (fun _ => none) poolStateTwoLocks hreach 10
    ⟨⟨1, 10, 100, .waiting⟩, 100⟩ ⟨⟨2, 10, 200, .waiting⟩, 200⟩
    (by decide) (by decide) (by decide)

/-- Counterexample to claim C6: when the task is not active and
`populateDetails` fails, `StopTask` returns that error and writes no
status and no event — it does not "set the status to Stopped and
return no error" for every non-active task. -/
theorem stopTask_inactive_error_counterexample :
    (stopTask none (Except.error "store failure") false).retErr = some "store failure" ∧
    (stopTask none (Except.error "store failure") false).statusSet = none ∧
    (stopTask none (Except.error "store failure") false).eventCreated = false := by
  exact ⟨rfl, rfl, rfl⟩

/-- Claim C6 (amended): for a non-active task, if `populateDetails`
succeeds `StopTask` sets the status directly to `Stopped`, emits the
stop event and returns no error; if `populateDetails` fails its error
is returned and neither the status nor the event is written. -/
theorem stopTask_inactive_spec (populate : Except String Unit) (forceStop : Bool) :
    ((stopTask none populate forceStop).retErr = none ↔ populate = .ok ()) ∧
    ((stopTask none populate forceStop).statusSet = some TaskStatus.stopped ↔
      populate = .ok ()) ∧
    ((stopTask none populate forceStop).eventCreated = true ↔ populate = .ok ()) ∧
    (∀ e, populate = Except.error e →
      (stopTask none populate forceStop).retErr = some e) := by
  cases populate with
  | error e =>
    refine ⟨?_, ?_, ?_, ?_⟩
    · simp [stopTask]
    · simp [stopTask]
    · simp [stopTask]
    · intro e' he
      cases he
      rfl
  | ok u =>
    cases u
    refine ⟨by simp [stopTask], by simp [stopTask], by simp [stopTask], ?_⟩
    intro e' he
    cases he

/-- Witness for C6 (amended) at concrete populate results. -/
theorem stopTask_inactive_spec_witness :
    ((stopTask none (Except.ok ()) false).retErr = none ↔
      (Except.ok () : Except String Unit) = Except.ok ()) ∧
    (stopTask none (Except.error "boom") true).retErr = some "boom" := by
  exact ⟨(stopTask_inactive_spec (Except.ok ()) false).1,
    (stopTask_inactive_spec (Except.error "boom") true).2.2.2 "boom" rfl⟩

/-- Counterexample to claim C7: an active task whose status is still
`Waiting` (it sits in the queue) gets its status set to `Stopping`,
but `kill()` is NOT invoked — the code only kills when the prior
status was `Running` (TaskPool.go:230-232). -/
theorem stopTask_active_no_kill_counterexample :
    (stopTask (some ⟨⟨5, 1, 7, .waiting⟩, 7⟩) (Except.ok ()) false).statusSet =
      some TaskStatus.stopping ∧
    (stopTask (some ⟨⟨5, 1, 7, .waiting⟩, 7⟩) (Except.ok ()) false).killInvoked = false := by
  exact ⟨rfl, rfl⟩

/-- Claim C7 (amended): for an active task, `StopTask` sets the
status to `Stopping` (`Stopped` when `forceStop`), returns no error,
and invokes `kill()` iff the task's prior status was `Running`. -/
theorem stopTask_active_spec (tsk : TaskRunner) (populate : Except String Unit)
    (forceStop : Bool) :
    (stopTask (some tsk) populate forceStop).statusSet =
      some (if forceStop then TaskStatus.stopped else TaskStatus.stopping) ∧
    ((stopTask (some tsk) populate forceStop).killInvoked = true ↔
      tsk.task.status = .running) ∧
    (stopTask (some tsk) populate forceStop).retErr = none := by
  refine ⟨rfl, ?_, rfl⟩
  simp [stopTask]

/-- Counterexample to claim C5: when `job.Run` returns a nil error
while the status is `Stopping`, the goroutine writes `Success`, not
`Stopped` — so "`Stopped` is assigned iff the status was `Stopping`
when it exited" fails in the nil-error case. -/
theorem runnerFinalStatus_stopping_success_counterexample :
    runnerFinalStatus .stopping false = some TaskStatus.success ∧
    some TaskStatus.success ≠ some TaskStatus.stopped := by
  exact ⟨rfl, by decide⟩

/-- Claim C5 (amended): a final status is written iff the current
status is not terminal; the written status is `Success`, `Fail` or
`Stopped`; `Stopped` is assigned iff `Run` returned an error AND the
status was `Stopping` when it exited; `Success` is assigned iff `Run`
returned no error. -/
theorem runnerFinalStatus_spec :
    (∀ cur runFailed st, runnerFinalStatus cur runFailed = some st →
      cur.IsFinished = false ∧
      (st = .success ∨ st = .fail ∨ st = .stopped) ∧
      (st = .stopped ↔ (runFailed = true ∧ cur = .stopping)) ∧
      (st = .success ↔ runFailed = false)) ∧
    (∀ cur runFailed, cur.IsFinished = true →
      runnerFinalStatus cur runFailed = none) := by
  exact ⟨by decide, by decide⟩

/-- Witness for C5 (amended): a running job that failed is marked
`Fail`; a finished job's status is left untouched. -/
theorem runnerFinalStatus_spec_witness :
    (TaskStatus.running.IsFinished = false ∧
      (TaskStatus.fail = .success ∨ TaskStatus.fail = .fail ∨ TaskStatus.fail = .stopped) ∧
      (TaskStatus.fail = .stopped ↔ (true = true ∧ TaskStatus.running = .stopping)) ∧
      (TaskStatus.fail = .success ↔ true = false)) ∧
    runnerFinalStatus .success true = none := by
  exact ⟨runnerFinalStatus_spec.1 .running true .fail rfl,
    runnerFinalStatus_spec.2 .success true rfl⟩

/-- Claim C10: `checkNewJobs` deduplicates only against
`runningJobs`: whenever the one-off early return does not fire, the
new queue is the old queue plus every `new_jobs` entry whose task id
is absent from `runningJobs` — entries already waiting in the queue
are not considered, so the queue can hold two entries for one id. -/
theorem checkNewJobsQueue_no_queue_dedup (oneOff : Bool) (runningIDs : List Int)
    (queue : List QueuedJob) (newJobs : List QueuedJob)
    (hguard : (oneOff && (queue.length != 0 || runningIDs.length != 0)) = false) :
    checkNewJobsQueue oneOff runningIDs queue newJobs =
      queue ++ newJobs.filter (fun j => !(runningIDs.contains j.taskID)) ∧
    (∀ j ∈ newJobs, runningIDs.contains j.taskID = false →
      j ∈ checkNewJobsQueue oneOff runningIDs queue newJobs) ∧
    (∀ j ∈ queue, j ∈ checkNewJobsQueue oneOff runningIDs queue newJobs) := by
  have heq : checkNewJobsQueue oneOff runningIDs queue newJobs =
      queue ++ newJobs.filter (fun j => !(runningIDs.contains j.taskID)) := by
    unfold checkNewJobsQueue
    rw [hguard]
    simp
  refine ⟨heq, ?_, ?_⟩
  · intro j hj hrun
    rw [heq]
    refine List.mem_append_right _ (List.mem_filter.mpr ⟨hj, ?_⟩)
    rw [hrun]
    rfl
  · intro j hj
    rw [heq]
    exact List.mem_append_left _ hj

/-- Witness for C10: a task id `7` already waiting in the queue is
enqueued again from `new_jobs`, leaving two queue entries with id `7`. -/
theorem checkNewJobsQueue_no_queue_dedup_witness :
    checkNewJobsQueue false [9] [⟨7, "alice"⟩] [⟨7, "bob"⟩, ⟨9, "carol"⟩] =
      [⟨7, "alice"⟩, ⟨7, "bob"⟩] := by
  have h := checkNewJobsQueue_no_queue_dedup false [9] [⟨7, "alice"⟩]
    [⟨7, "bob"⟩, ⟨9, "carol"⟩] (by decide)
  rw [h.1]
  decide

/-- Counterexample to claim C4: on the test's own input the merged
object pinned by `TestPopulateDetails` keeps the TEMPLATE's value on
the colliding key "comment", so the task's value does not win; the
spec-worded merge disagrees with the test's expected output. -/
theorem mergeEnv_task_wins_counterexample :
    List.lookup "comment" mergedEnvTest = some "Hello, World!" ∧
    List.lookup "comment" taskEnvTest = some "Just do it!" ∧
    mergeEnvTaskWins tplEnvTest taskEnvTest "comment" = some "Just do it!" ∧
    mergeEnvTaskWins tplEnvTest taskEnvTest "comment" ≠
      List.lookup "comment" mergedEnvTest := by
  refine ⟨rfl, rfl, rfl, ?_⟩
  decide

/-- Claim C4 (amended): the merged object's key set is the union of
the template's and the task's keys, and on a key present in both the
TEMPLATE's value wins (the test pins `"comment" ↦ "Hello, World!"`). -/
theorem mergeEnv_spec (tplEnv taskEnv : EnvObject) (k : String) :
    ((mergeEnv tplEnv taskEnv k).isSome ↔
      (List.lookup k tplEnv).isSome ∨ (List.lookup k taskEnv).isSome) ∧
    (∀ v, List.lookup k tplEnv = some v → mergeEnv tplEnv taskEnv k = some v) ∧
    (List.lookup k tplEnv = none → mergeEnv tplEnv taskEnv k = List.lookup k taskEnv) := by
  unfold mergeEnv
  cases htpl : List.lookup k tplEnv with
  | some v =>
    refine ⟨by simp, ?_, ?_⟩
    · intro v' hv'
      exact hv'
    · intro hc
      cases hc
  | none =>
    refine ⟨by simp, ?_, fun _ => rfl⟩
    intro v' hv'
    cases hv'

/-- Witness for C4 (amended): at the test's input the merge agrees
with the expected object of `TestPopulateDetails` on all three keys. -/
theorem mergeEnv_spec_witness :
    mergeEnv tplEnvTest taskEnvTest "comment" = some "Hello, World!" ∧
    mergeEnv tplEnvTest taskEnvTest "time" = List.lookup "time" taskEnvTest ∧
    ((mergeEnv tplEnvTest taskEnvTest "author").isSome ↔
      (List.lookup "author" tplEnvTest).isSome ∨
        (List.lookup "author" taskEnvTest).isSome) := by
  refine ⟨?_, ?_, ?_⟩
  · exact (mergeEnv_spec tplEnvTest taskEnvTest "comment").2.1 "Hello, World!" rfl
  · exact (mergeEnv_spec tplEnvTest taskEnvTest "time").2.2 rfl
  · exact (mergeEnv_spec tplEnvTest taskEnvTest "author").1

example : getNextBuildVersion "v0.0.1" "v0.0.5" = some "v0.0.6" := by decide

example : getNextBuildVersion "v1.0.0" "v0.9.9" = some "v1.0.0" := by decide

example : getNextBuildVersion "2024-build-1" "2024-build-9" = some "2024-build-10" := by decide

example : getNextBuildVersion "release" "release" = some "release" := by decide

example : getNextBuildVersion "v0.0.1" "v0.0.9" = some "v0.0.10" := by decide

example : matchVersionRe "a\nb1".data = none := by decide

example : getNextBuildVersion "a\nb1" "a\nb5" = some "a\nb1" := by decide

example : matchVersionRe "a\n1x".data = some ("a\n".data, "1".data, "x".data) := by decide

example : matchVersionRe "1\na2".data = some ([], "1".data, "\na2".data) := by decide

theorem atoi_bounds (s : List Char) (v : Int) (h : atoi s = some v) :
    -9223372036854775808 ≤ v ∧ v ≤ 9223372036854775807 := by
  cases s with
  | nil => cases h
  | cons c rest =>
    simp only [atoi] at h
    split_ifs at h with h1 h2
    · cases hd : atoiDigits rest with
      | none => rw [hd] at h; cases h
      | some n =>
        rw [hd] at h
        simp only [Option.some_bind] at h
        split_ifs at h with hle
        · cases h
          have := Int.natCast_nonneg n
          omega
    · cases hd : atoiDigits rest with
      | none => rw [hd] at h; cases h
      | some n =>
        rw [hd] at h
        simp only [Option.some_bind] at h
        split_ifs at h with hle
        · cases h
          have := Int.natCast_nonneg n
          omega
    · cases hd : atoiDigits (c :: rest) with
      | none => rw [hd] at h; cases h
      | some n =>
        rw [hd] at h
        simp only [Option.some_bind] at h
        split_ifs at h with hle
        · cases h
          have := Int.natCast_nonneg n
          omega

theorem wrap64_eq_self (x : Int) (h1 : -9223372036854775808 ≤ x)
    (h2 : x ≤ 9223372036854775807) : wrap64 x = x := by
  unfold wrap64
  have h3 : 0 ≤ x + 9223372036854775808 := by omega
  have h4 : x + 9223372036854775808 < 18446744073709551616 := by omega
  rw [Int.emod_eq_of_lt h3 h4]
  omega

theorem matchVersionRe_eq_none_of_no_digit (s : List Char)
    (h : ∀ c ∈ s, c.isDigit = false) : matchVersionRe s = none := by
  have hbody : ∀ k : Nat, (s.drop k).takeWhile (fun c => c.isDigit) = [] := by
    intro k
    cases hd : s.drop k with
    | nil => rfl
    | cons c t =>
      have hc : c ∈ s := List.mem_of_mem_drop (hd ▸ List.mem_cons_self c t)
      rw [List.takeWhile_cons]
      simp [h c hc]
  have hfind : (List.range (s.length + 1)).reverse.find? (fun k => validSplit s k) = none := by
    rw [List.find?_eq_none]
    intro k _
    unfold validSplit
    rw [hbody k]
    simp
  unfold matchVersionRe
  rw [hfind]

/-- Claim C3: `getNextBuildVersion` decomposes `startVersion` at the
regex into (prefix-part, digit run, suffix-part); returns
`startVersion` unchanged when the regex does not match or when
`currentVersion` does not carry that prefix and suffix; otherwise,
when the middle of `currentVersion` parses as the integer `curr`
(and the 64-bit increment does not wrap), it returns
`prefix ++ max(start, curr+1) ++ suffix`; `"v0.0.1"`/`"v0.0.5"`
yields `"v0.0.6"`; a digit-free `startVersion` is returned unchanged
for every `currentVersion`. -/
theorem getNextBuildVersion_spec :
    (∀ s c : String, matchVersionRe s.data = none →
      getNextBuildVersion s c = some s) ∧
    (∀ (s c : String) (pre body sfx : List Char),
      matchVersionRe s.data = some (pre, body, sfx) →
      ¬ (pre.isPrefixOf c.data = true ∧ sfx.isSuffixOf c.data = true) →
      getNextBuildVersion s c = some s) ∧
    (∀ (s c : String) (pre body sfx : List Char) (curr start : Int),
      matchVersionRe s.data = some (pre, body, sfx) →
      pre.isPrefixOf c.data = true →
      sfx.isSuffixOf c.data = true →
      ¬ (c.data.length - sfx.length < pre.length) →
      atoi ((c.data.take (c.data.length - sfx.length)).drop pre.length) = some curr →
      atoi body = some start →
      curr < 9223372036854775807 →
      getNextBuildVersion s c =
        some (String.mk (pre ++ (toString (max start (curr + 1))).data ++ sfx))) ∧
    (getNextBuildVersion "v0.0.1" "v0.0.5" = some "v0.0.6") ∧
    (∀ s c : String, (∀ ch ∈ s.data, ch.isDigit = false) →
      getNextBuildVersion s c = some s) := by
  have part1 : ∀ s c : String, matchVersionRe s.data = none →
      getNextBuildVersion s c = some s := by
    intro s c hm
    unfold getNextBuildVersion
    rw [hm]
  have part2 : ∀ (s c : String) (pre body sfx : List Char),
      matchVersionRe s.data = some (pre, body, sfx) →
      ¬ (pre.isPrefixOf c.data = true ∧ sfx.isSuffixOf c.data = true) →
      getNextBuildVersion s c = some s := by
    intro s c pre body sfx hm hns
    unfold getNextBuildVersion
    rw [hm]
    simp only []
    rw [if_pos]
    cases hb1 : pre.isPrefixOf c.data with
    | false => simp
    | true =>
      cases hb2 : sfx.isSuffixOf c.data with
      | false => simp
      | true => exact absurd ⟨hb1, hb2⟩ hns
  refine ⟨part1, part2, ?_, by decide, ?_⟩
  · intro s c pre body sfx curr start hm hp hs hg hmid hbody hcurr
    unfold getNextBuildVersion
    rw [hm]
    simp only []
    rw [hp, hs]
    rw [if_neg (by decide)]
    rw [if_neg hg]
    simp only [hmid, hbody]
    have hbnd := atoi_bounds _ _ hmid
    have harith : (if start > curr then start else wrap64 (curr + 1)) =
        max start (curr + 1) := by
      rcases lt_or_le curr start with hlt | hle
      · rw [if_pos hlt, max_eq_left (by omega)]
      · rw [if_neg (not_lt.mpr hle), wrap64_eq_self _ (by omega) (by omega),
          max_eq_right (by omega)]
    rw [harith]
  · intro s c h
    exact part1 s c (matchVersionRe_eq_none_of_no_digit s.data h)

/-- Witness for C3: the no-match branch at `"release"`, the
mismatched-prefix branch at `"v1"`/`"a2"`, and the increment branch
at `"v0.0.1"`/`"v0.0.5"`. -/
theorem getNextBuildVersion_spec_witness :
    getNextBuildVersion "release" "anything" = some "release" ∧
    getNextBuildVersion "v1" "a2" = some "v1" ∧
    getNextBuildVersion "v0.0.1" "v0.0.5" =
      some (String.mk ("v0.0.".data ++ (toString (max (1 : Int) (5 + 1))).data ++ [])) := by
  refine ⟨?_, ?_, ?_⟩
  · exact getNextBuildVersion_spec.1 "release" "anything"
      (by decide)
  · exact getNextBuildVersion_spec.2.1 "v1" "a2" "v".data "1".data []
      (by decide) (by decide)
  · exact getNextBuildVersion_spec.2.2.1 "v0.0.1" "v0.0.5" "v0.0.".data "1".data [] 5 1
      (by decide) (by decide) (by decide) (by decide) (by decide) (by decide) (by decide)

end Semaphore
